import Mathlib

/-!
Verification of oscpack's OSC received-element readers and the posix
socket-receive multiplexer, shallowly embedded from
src/osc/OscReceivedElements.h and src/oscpack/ip/posix/UdpSocket.h.

Buffers are lists of bytes (Nat values below 256 in practice); C++ pointers
into a buffer become Nat offsets; C++ exceptions become an explicit error
type returned through Except. Bodies that live in OscReceivedElements.cpp
(not among the provided sources) are modelled from the specification and
say so in their doc comments.
-/

namespace osc

/-- Error kinds raised by the readers, mirroring the exception classes of
OscReceivedElements.h: MalformedMessageException, MalformedBundleException,
WrongArgumentTypeException, MissingArgumentException and
ExcessArgumentException. -/
inductive OscError where
  | malformedMessage
  | malformedBundle
  | wrongArgumentType
  | missingArgument
  | excessArgument
deriving DecidableEq, Repr

/-- Modelled from the spec: OscTypes.h is not among the provided sources; the
tag characters are listed in spec section 3. ASCII code of the tag T. -/
def TRUE_TYPE_TAG : Nat := 84

/-- Modelled from the spec: ASCII code of the tag F. -/
def FALSE_TYPE_TAG : Nat := 70

/-- Modelled from the spec: ASCII code of the tag N. -/
def NIL_TYPE_TAG : Nat := 78

/-- Modelled from the spec: ASCII code of the tag I. -/
def INFINITUM_TYPE_TAG : Nat := 73

/-- Modelled from the spec: ASCII code of the tag i. -/
def INT32_TYPE_TAG : Nat := 105

/-- Modelled from the spec: ASCII code of the tag f. -/
def FLOAT_TYPE_TAG : Nat := 102

/-- Modelled from the spec: ASCII code of the tag c. -/
def CHAR_TYPE_TAG : Nat := 99

/-- Modelled from the spec: ASCII code of the tag r. -/
def RGBA_COLOR_TYPE_TAG : Nat := 114

/-- Modelled from the spec: ASCII code of the tag m. -/
def MIDI_MESSAGE_TYPE_TAG : Nat := 109

/-- Modelled from the spec: ASCII code of the tag h. -/
def INT64_TYPE_TAG : Nat := 104

/-- Modelled from the spec: ASCII code of the tag t. -/
def TIME_TAG_TYPE_TAG : Nat := 116

/-- Modelled from the spec: ASCII code of the tag d. -/
def DOUBLE_TYPE_TAG : Nat := 100

/-- Modelled from the spec: ASCII code of the tag s. -/
def STRING_TYPE_TAG : Nat := 115

/-- Modelled from the spec: ASCII code of the symbol tag S, declared in the
header through SYMBOL_TYPE_TAG. -/
def SYMBOL_TYPE_TAG : Nat := 83

/-- Modelled from the spec: ASCII code of the tag b. -/
def BLOB_TYPE_TAG : Nat := 98

/-- ASCII code of the comma that leads every type-tag string. -/
def COMMA_CHAR : Nat := 44

/-- The byte of the borrowed buffer at offset i (0 past the end; the C++ code
never dereferences past the end on the paths embedded here). -/
def byteAt (buf : List Nat) (i : Nat) : Nat := buf.getD i 0

/-- The next 4-byte-aligned offset at or after n, as used for the padding of
address patterns, type-tag strings and string arguments. -/
def roundUp4 (n : Nat) : Nat := (n + 3) / 4 * 4

/-- Length of the C string starting the list: the number of bytes before the
first NUL, or the whole length when no NUL is present. -/
def cstrLen : List Nat → Nat
  | [] => 0
  | b :: rest => if b = 0 then 0 else cstrLen rest + 1

/-- Offset (counting from i) of the first NUL byte of the list, if any. -/
def findNulAux : List Nat → Nat → Option Nat
  | [], _ => none
  | b :: rest, i => if b = 0 then some i else findNulAux rest (i + 1)

/-- Offset of the first NUL byte of the buffer at or after start, if any
within the buffer. -/
def findNul (buf : List Nat) (start : Nat) : Option Nat :=
  findNulAux (buf.drop start) start

/-- The big-endian 32-bit word at offset i of the buffer. -/
def readUint32 (buf : List Nat) (i : Nat) : Nat :=
  byteAt buf i * 16777216 + byteAt buf (i + 1) * 65536
    + byteAt buf (i + 2) * 256 + byteAt buf (i + 3)

/-- The big-endian 64-bit word at offset i of the buffer. -/
def readUint64 (buf : List Nat) (i : Nat) : Nat :=
  readUint32 buf i * 4294967296 + readUint32 buf (i + 4)

/-- Two's-complement reading of a 32-bit word. -/
def int32OfUint32 (u : Nat) : Int :=
  if u < 2147483648 then (u : Int) else (u : Int) - 4294967296

/-- Two's-complement reading of a 64-bit word. -/
def int64OfUint64 (u : Nat) : Int :=
  if u < 9223372036854775808 then (u : Int) else (u : Int) - 18446744073709551616

/-- ReceivedMessageArgument: a pair of borrowed pointers, one into the
type-tag string and one into the argument payload area. -/
structure ReceivedMessageArgument where
  typeTagPtr_ : Nat
  argumentPtr_ : Nat
deriving DecidableEq, Repr

/-- TypeTag(): the dereference of typeTagPtr_. -/
def ReceivedMessageArgument.TypeTag (buf : List Nat) (a : ReceivedMessageArgument) : Nat :=
  byteAt buf a.typeTagPtr_

/-- Modelled from the spec: the per-tag payload sizes that
ReceivedMessageArgumentIterator::Advance consumes; its body is in
OscReceivedElements.cpp, which is not among the provided sources. Spec
section 6: i, f, c, r, m take 4 bytes; h, t, d take 8; T, F, N, I take 0;
s (and the symbol tag) a NUL-terminated string padded to a 4-byte boundary;
b a 4-byte big-endian length followed by that many bytes padded to a 4-byte
boundary. -/
def argumentWireSize (buf : List Nat) (tag : Nat) (argPtr : Nat) : Nat :=
  if tag = INT32_TYPE_TAG ∨ tag = FLOAT_TYPE_TAG ∨ tag = CHAR_TYPE_TAG
      ∨ tag = RGBA_COLOR_TYPE_TAG ∨ tag = MIDI_MESSAGE_TYPE_TAG then 4
  else if tag = INT64_TYPE_TAG ∨ tag = TIME_TAG_TYPE_TAG ∨ tag = DOUBLE_TYPE_TAG then 8
  else if tag = TRUE_TYPE_TAG ∨ tag = FALSE_TYPE_TAG ∨ tag = NIL_TYPE_TAG
      ∨ tag = INFINITUM_TYPE_TAG then 0
  else if tag = STRING_TYPE_TAG ∨ tag = SYMBOL_TYPE_TAG then
    roundUp4 (cstrLen (buf.drop argPtr) + 1)
  else if tag = BLOB_TYPE_TAG then 4 + roundUp4 (readUint32 buf argPtr)
  else 0

/-- ReceivedMessageArgumentIterator wraps a current argument value. -/
structure ReceivedMessageArgumentIterator where
  value_ : ReceivedMessageArgument
deriving DecidableEq, Repr

/-- Modelled from the spec: Advance() is defined in OscReceivedElements.cpp,
which is not among the provided sources; it moves typeTagPtr_ to the next
tag character and argumentPtr_ past the current argument's payload. -/
def ReceivedMessageArgumentIterator.Advance (buf : List Nat)
    (it : ReceivedMessageArgumentIterator) : ReceivedMessageArgumentIterator :=
  ⟨⟨it.value_.typeTagPtr_ + 1,
    it.value_.argumentPtr_
      + argumentWireSize buf (it.value_.TypeTag buf) it.value_.argumentPtr_⟩⟩

/-- IsEqualTo: iterator equality compares the type-tag pointers only
(OscReceivedElements.h lines 277-280). -/
def ReceivedMessageArgumentIterator.IsEqualTo
    (l r : ReceivedMessageArgumentIterator) : Bool :=
  l.value_.typeTagPtr_ == r.value_.typeTagPtr_

/-- ReceivedMessage's four borrowed pointers, as offsets into the buffer. -/
structure ReceivedMessage where
  addressPattern_ : Nat
  typeTagsBegin_ : Nat
  typeTagsEnd_ : Nat
  arguments_ : Nat
deriving DecidableEq, Repr

/-- ArgumentCount(): the pointer difference typeTagsEnd_ - typeTagsBegin_
(OscReceivedElements.h line 445). -/
def ReceivedMessage.ArgumentCount (m : ReceivedMessage) : Nat :=
  m.typeTagsEnd_ - m.typeTagsBegin_

/-- ArgumentsBegin(): an iterator at (typeTagsBegin_, arguments_). -/
def ReceivedMessage.ArgumentsBegin (m : ReceivedMessage) : ReceivedMessageArgumentIterator :=
  ⟨⟨m.typeTagsBegin_, m.arguments_⟩⟩

/-- ArgumentsEnd(): an iterator at (typeTagsEnd_, 0). -/
def ReceivedMessage.ArgumentsEnd (m : ReceivedMessage) : ReceivedMessageArgumentIterator :=
  ⟨⟨m.typeTagsEnd_, 0⟩⟩

/-- Modelled from the spec: ReceivedMessage::Init is defined in
OscReceivedElements.cpp, which is not among the provided sources. Spec
section 4.2: scan the address pattern for its NUL terminator (malformed
message when absent), move to the next 4-byte-aligned offset, require a
leading comma there for the type-tag string (malformed message otherwise),
scan for the tag string's NUL terminator (malformed message when absent);
the argument payload begins at the next 4-byte-aligned offset after it. -/
def ReceivedMessage.Init (buf : List Nat) : Except OscError ReceivedMessage :=
  match findNul buf 0 with
  | none => .error .malformedMessage
  | some addressEnd =>
    if roundUp4 (addressEnd + 1) < buf.length
        ∧ byteAt buf (roundUp4 (addressEnd + 1)) = COMMA_CHAR then
      match findNul buf (roundUp4 (addressEnd + 1) + 1) with
      | none => .error .malformedMessage
      | some tagsEnd =>
        .ok ⟨0, roundUp4 (addressEnd + 1) + 1, tagsEnd, roundUp4 (tagsEnd + 1)⟩
    else .error .malformedMessage

/-- Fuelled form of the caller's iteration loop from ArgumentsBegin() to
ArgumentsEnd(): collect each visited argument's type tag while the iterator
is not IsEqualTo the end sentinel, advancing as operator++ does. -/
def iterCollect (buf : List Nat) :
    Nat → ReceivedMessageArgumentIterator → ReceivedMessageArgumentIterator →
    Option (List Nat)
  | 0, cur, stop => if cur.IsEqualTo stop then some [] else none
  | fuel + 1, cur, stop =>
    if cur.IsEqualTo stop then some []
    else
      match iterCollect buf fuel (cur.Advance buf) stop with
      | none => none
      | some tags => some (cur.value_.TypeTag buf :: tags)

/-- The characters of the message's type-tag string after the leading comma,
in order. -/
def messageTags (buf : List Nat) (m : ReceivedMessage) : List Nat :=
  (List.range m.ArgumentCount).map fun k => byteAt buf (m.typeTagsBegin_ + k)

/-- The twelve C++ target types of the stream's typed operator>> overloads
(OscReceivedElements.h lines 310-419). -/
inductive TargetType where
  | tBool | tInt32 | tFloat | tChar | tRgbaColor | tMidiMessage
  | tInt64 | tTimeTag | tDouble | tBlob | tString | tSymbol
deriving DecidableEq, Repr

/-- The tag check of the checked accessor each overload calls: a bool accepts
T or F, every other target type accepts its single tag. -/
def tagMatches : TargetType → Nat → Bool
  | .tBool, t => t == TRUE_TYPE_TAG || t == FALSE_TYPE_TAG
  | .tInt32, t => t == INT32_TYPE_TAG
  | .tFloat, t => t == FLOAT_TYPE_TAG
  | .tChar, t => t == CHAR_TYPE_TAG
  | .tRgbaColor, t => t == RGBA_COLOR_TYPE_TAG
  | .tMidiMessage, t => t == MIDI_MESSAGE_TYPE_TAG
  | .tInt64, t => t == INT64_TYPE_TAG
  | .tTimeTag, t => t == TIME_TAG_TYPE_TAG
  | .tDouble, t => t == DOUBLE_TYPE_TAG
  | .tBlob, t => t == BLOB_TYPE_TAG
  | .tString, t => t == STRING_TYPE_TAG
  | .tSymbol, t => t == SYMBOL_TYPE_TAG

/-- A decoded argument value. Float and double payloads are kept as their raw
big-endian bit patterns; string, symbol and blob values are borrowed
pointers into the buffer, as the C++ accessors return. -/
inductive ArgValue where
  | vBool (b : Bool)
  | vInt32 (v : Int)
  | vFloat (raw : Nat)
  | vChar (v : Nat)
  | vRgbaColor (v : Nat)
  | vMidiMessage (v : Nat)
  | vInt64 (v : Int)
  | vTimeTag (v : Nat)
  | vDouble (raw : Nat)
  | vString (ptr : Nat)
  | vSymbol (ptr : Nat)
  | vBlob (dataPtr : Nat) (size : Nat)
deriving DecidableEq, Repr

/-- Modelled from the spec: the unchecked accessors are defined in
OscReceivedElements.cpp, which is not among the provided sources (the
header keeps only AsStringUnchecked and AsSymbolUnchecked, returning the
borrowed argumentPtr_). Each decodes the payload at argumentPtr_ by the
wire format of spec sections 3 and 6; a bool's value is whether its tag is
the true tag. -/
def decodeUnchecked (buf : List Nat) (tt : TargetType)
    (a : ReceivedMessageArgument) : ArgValue :=
  match tt with
  | .tBool => .vBool (a.TypeTag buf == TRUE_TYPE_TAG)
  | .tInt32 => .vInt32 (int32OfUint32 (readUint32 buf a.argumentPtr_))
  | .tFloat => .vFloat (readUint32 buf a.argumentPtr_)
  | .tChar => .vChar (readUint32 buf a.argumentPtr_)
  | .tRgbaColor => .vRgbaColor (readUint32 buf a.argumentPtr_)
  | .tMidiMessage => .vMidiMessage (readUint32 buf a.argumentPtr_)
  | .tInt64 => .vInt64 (int64OfUint64 (readUint64 buf a.argumentPtr_))
  | .tTimeTag => .vTimeTag (readUint64 buf a.argumentPtr_)
  | .tDouble => .vDouble (readUint64 buf a.argumentPtr_)
  | .tString => .vString a.argumentPtr_
  | .tSymbol => .vSymbol a.argumentPtr_
  | .tBlob => .vBlob (a.argumentPtr_ + 4) (readUint32 buf a.argumentPtr_)

/-- Modelled from the spec: the checked accessors (AsBool, AsInt32, ...) are
defined in OscReceivedElements.cpp, which is not among the provided
sources. Spec section 4.2: a checked accessor verifies the current tag
matches before decoding and fails with a wrong-argument-type error
otherwise; blob accessors additionally validate the 4-byte length prefix
against the remaining bounds. -/
def decodeArg (buf : List Nat) (tt : TargetType)
    (a : ReceivedMessageArgument) : Except OscError ArgValue :=
  if tagMatches tt (a.TypeTag buf) then
    match tt with
    | .tBlob =>
      if a.argumentPtr_ + 4 + readUint32 buf a.argumentPtr_ ≤ buf.length then
        .ok (decodeUnchecked buf .tBlob a)
      else .error .malformedMessage
    | _ => .ok (decodeUnchecked buf tt a)
  else .error .wrongArgumentType

/-- ReceivedMessageArgumentStream: the two cursors (current, end). -/
structure ReceivedMessageArgumentStream where
  p_ : ReceivedMessageArgumentIterator
  end_ : ReceivedMessageArgumentIterator
deriving DecidableEq, Repr

/-- Eos(): the current cursor equals the end cursor. -/
def ReceivedMessageArgumentStream.Eos (s : ReceivedMessageArgumentStream) : Bool :=
  s.p_.IsEqualTo s.end_

/-- The typed operator>> overloads of ReceivedMessageArgumentStream
(OscReceivedElements.h lines 310-419): throw missing-argument at end of
stream, otherwise post-increment the cursor and decode the argument it
pointed at with the checked accessor of the requested target type. The
returned stream is the stream's state after the call, also when the decode
fails, since the cursor has advanced before the accessor runs. -/
def extract (buf : List Nat) (tt : TargetType) (s : ReceivedMessageArgumentStream) :
    ReceivedMessageArgumentStream × Except OscError ArgValue :=
  if s.Eos then (s, .error .missingArgument)
  else ({ s with p_ := s.p_.Advance buf }, decodeArg buf tt s.p_.value_)

/-- operator>>( MessageTerminator& ) (OscReceivedElements.h lines 421-429):
throw excess-argument unless the stream is at end of stream; the stream is
returned unchanged in either case. -/
def extractEnd (s : ReceivedMessageArgumentStream) :
    ReceivedMessageArgumentStream × Except OscError Unit :=
  if s.Eos then (s, .ok ()) else (s, .error .excessArgument)

/-- ArgumentStream(): the stream from ArgumentsBegin() to ArgumentsEnd(). -/
def ReceivedMessage.ArgumentStream (m : ReceivedMessage) : ReceivedMessageArgumentStream :=
  ⟨m.ArgumentsBegin, m.ArgumentsEnd⟩

/-- Concrete message buffer of spec section 8: an address pattern of foo, the
tag string with one i tag, and the big-endian payload 42. -/
def bufSample : List Nat :=
  [47, 102, 111, 111, 0, 0, 0, 0, 44, 105, 0, 0, 0, 0, 0, 42]

/-- The reader Init builds over bufSample. -/
def msgSample : ReceivedMessage := ⟨0, 9, 10, 12⟩

/-- A one-argument buffer whose single tag is f, for exercising a mismatched
int32 extraction: tag region at offset 0, payload at offset 4. -/
def bufFloatArg : List Nat := [102, 0, 0, 0, 63, 128, 0, 0]

/-- A stream whose cursor stands on the f-tagged argument of bufFloatArg. -/
def streamFloatArg : ReceivedMessageArgumentStream := ⟨⟨⟨0, 4⟩⟩, ⟨⟨1, 0⟩⟩⟩

end osc

namespace oscpack

namespace posix

/-- errno value of an interrupted system call on POSIX. -/
def EINTR : Nat := 4

/-- What Run() does after select() returns a negative result
(UdpSocket.h lines 409-421): leave the loop when the stop flag is set,
restart the loop on EINTR, and otherwise throw a runtime error that
propagates out of Run(). -/
inductive SelectFailureAction where
  | exitLoop | retryLoop | fatalError
deriving DecidableEq, Repr

/-- The failure branch of the select() call in Run() (UdpSocket.h lines
409-421), as a function of the stop flag and errno. -/
def handleSelectFailure (breakFlag : Bool) (err : Nat) : SelectFailureAction :=
  if breakFlag then .exitLoop
  else if err = EINTR then .retryLoop
  else .fatalError

/-- The bytes the stop-sentinel comparison at UdpSocket.h line 439 accepts: a
7-character C string of two underscores, s, t, o, p and an underscore,
followed by its NUL terminator. -/
def stopSentinel : List Nat := [95, 95, 115, 116, 111, 112, 95, 0]

/-- The sentinel test at UdpSocket.h line 439: the received size is exactly 8
and the scratch buffer holds the stop C string (strcmp equality means the
first 8 buffer bytes are the 7 characters and the NUL). -/
def isStopMessage (size : Nat) (data : List Nat) : Bool :=
  size == 8 && data.take 8 == stopSentinel

/-- One registered socket as Run() sees it during one pass of the socket
service loop (UdpSocket.h lines 432-451): whether select() marked it
readable, what ReceiveFrom returns (size 0 on failure or no data) together
with the scratch-buffer contents and the sender endpoint, and whether the
attached listener's ProcessPacket call sets the stop flag. -/
structure SocketEntry where
  id : Nat
  readable : Bool
  recvSize : Nat
  recvData : List Nat
  senderAddr : Nat
  senderPort : Nat
  handlerBreaks : Bool
deriving DecidableEq, Repr

/-- One call of a listener's ProcessPacket(data, size, remoteEndpoint). -/
structure Invocation where
  listenerId : Nat
  data : List Nat
  size : Nat
  senderAddr : Nat
  senderPort : Nat
deriving DecidableEq, Repr

/-- The ProcessPacket call a socket entry's datagram produces. -/
def invocationOf (e : SocketEntry) : Invocation :=
  ⟨e.id, e.recvData, e.recvSize, e.senderAddr, e.senderPort⟩

/-- The socket service loop of Run() (UdpSocket.h lines 432-451), walking the
registrations in order: a readable socket's datagram is read; the stop
sentinel sets the stop flag and leaves the loop without a handler call; a
datagram of positive size is handed to ProcessPacket, and the loop is left
when the handler set the stop flag; a zero-size read is skipped. Returns
the stop flag after the loop and the handler calls in order. -/
def serviceSockets : List SocketEntry → Bool × List Invocation
  | [] => (false, [])
  | e :: rest =>
    if e.readable then
      if isStopMessage e.recvSize e.recvData then (true, [])
      else if 0 < e.recvSize then
        if e.handlerBreaks then (true, [invocationOf e])
        else ((serviceSockets rest).1, invocationOf e :: (serviceSockets rest).2)
      else serviceSockets rest
    else serviceSockets rest

/-- The while condition of Run()'s event loop (UdpSocket.h line 393): the
loop continues while the stop flag is unset. -/
def loopContinues (breakFlag : Bool) : Bool := !breakFlag

/-- One entry of the timerQueue_ built in Run() (UdpSocket.h line 381): the
absolute next-fire time in milliseconds paired with the attached listener's
period; handlerBreaks records whether this listener's TimerExpired call
sets the stop flag, and id identifies the listener. Times are integral:
GetCurrentTimeMs truncates a steady clock to whole milliseconds and delays
and periods are ints. -/
structure TimerEntry where
  first : Int
  periodMs : Int
  handlerBreaks : Bool
  id : Nat
deriving DecidableEq, Repr

/-- The ordering CompareScheduledTimerCalls sorts by: ascending fire time. -/
def timerLe (a b : TimerEntry) : Prop := a.first ≤ b.first

instance : DecidableRel timerLe := fun a b => inferInstanceAs (Decidable (a.first ≤ b.first))

instance : IsTotal TimerEntry timerLe := ⟨fun a b => Int.le_total a.first b.first⟩

instance : IsTrans TimerEntry timerLe := ⟨fun _ _ _ hab hbc => le_trans hab hbc⟩

/-- The timer loop of Run() (UdpSocket.h lines 456-465): walk the queue while
the front entries have expired; each expired entry's TimerExpired runs, the
loop is left at once when the handler set the stop flag (the entry is then
not rescheduled), and otherwise the entry's fire time is advanced by its
period. Returns the queue, the fired listener ids in order, whether any
entry was rescheduled (the resort flag) and whether the loop stopped on the
break flag. -/
def fireLoop (now : Int) : List TimerEntry → List TimerEntry × List Nat × Bool × Bool
  | [] => ([], [], false, false)
  | e :: rest =>
    if e.first ≤ now then
      if e.handlerBreaks then (e :: rest, [e.id], false, true)
      else
        ({ e with first := e.first + e.periodMs } :: (fireLoop now rest).1,
          e.id :: (fireLoop now rest).2.1, true, (fireLoop now rest).2.2.2)
    else (e :: rest, [], false, false)

/-- Lines 453-467 of UdpSocket.h: fire the expired timers, then re-sort the
queue by fire time when any entry was rescheduled (std::sort with
CompareScheduledTimerCalls; an insertion sort stands in for std::sort's
unspecified choice among equal keys). Returns the queue, the fired listener
ids and the stop flag. -/
def execExpiredTimers (now : Int) (queue : List TimerEntry) :
    List TimerEntry × List Nat × Bool :=
  ((if (fireLoop now queue).2.2.1
      then List.insertionSort timerLe (fireLoop now queue).1
      else (fireLoop now queue).1),
    (fireLoop now queue).2.1, (fireLoop now queue).2.2.2)

/-- What a pass does to one queue entry: an expired entry is rescheduled by
adding its period to its previous fire time, others are untouched. -/
def rescheduleElapsed (now : Int) (e : TimerEntry) : TimerEntry :=
  if e.first ≤ now then { e with first := e.first + e.periodMs } else e

/-- The multiplexer state the break members touch: the atomic stop flag and
the bytes pending in the asynchronous break pipe. -/
structure MuxState where
  breakFlag : Bool
  pipeBytes : Nat
deriving DecidableEq, Repr

/-- Break() (UdpSocket.h lines 478-481): set the stop flag. -/
def Break (s : MuxState) : MuxState := { s with breakFlag := true }

/-- AsynchronousBreak() (UdpSocket.h lines 483-489): set the stop flag and
write one byte to the break pipe so select() returns. -/
def AsynchronousBreak (s : MuxState) : MuxState :=
  { breakFlag := true, pipeBytes := s.pipeBytes + 1 }

/-- The first statement of Run() (UdpSocket.h line 351): the stop flag is
reset to false on entry. -/
def RunEntry (s : MuxState) : MuxState := { s with breakFlag := false }

/-- Outcome of one wait cycle of Run(). -/
inductive WaitCycleResult where
  | returns
  | blocksForever
  | continues (s : MuxState)
deriving DecidableEq, Repr

/-- One wait cycle of Run() with no sockets and no timers registered
(UdpSocket.h lines 393-430): the timer queue being empty, select() is given
a null timeout and blocks until the break pipe is readable; on waking,
Run() drains one byte from the pipe and leaves the loop if the stop flag is
set, else iterates. -/
def waitCycleNoWork (s : MuxState) : WaitCycleResult :=
  if s.pipeBytes = 0 then .blocksForever
  else if s.breakFlag then .returns
  else .continues ⟨s.breakFlag, s.pipeBytes - 1⟩

/-- A socket entry holding the stop-sentinel datagram from some sender. -/
def stopEntry : SocketEntry := ⟨0, true, 8, stopSentinel, 167772161, 9000, false⟩

/-- A socket entry holding an ordinary 12-byte datagram. -/
def plainEntry : SocketEntry :=
  ⟨1, true, 12, [47, 97, 0, 0, 44, 0, 0, 0, 0, 0, 0, 0], 167772162, 9001, false⟩

/-- A sorted two-entry timer queue: one entry expired at time 100, one not. -/
def queueSample : List TimerEntry := [⟨50, 30, false, 0⟩, ⟨200, 10, false, 1⟩]

/-- A sorted timer queue with two expired entries whose first handler sets
the stop flag. -/
def queueBreaking : List TimerEntry := [⟨0, 10, true, 0⟩, ⟨0, 10, false, 1⟩]

end posix

end oscpack

namespace osc

theorem decodeArg_ne_missing (buf : List Nat) (tt : TargetType)
    (a : ReceivedMessageArgument) :
    decodeArg buf tt a ≠ .error .missingArgument := by
  unfold decodeArg
  split
  · cases tt <;> first | (dsimp only; split <;> simp) | simp
  · simp

theorem extract_eos (buf : List Nat) (tt : TargetType)
    (s : ReceivedMessageArgumentStream) (h : s.Eos = true) :
    extract buf tt s = (s, .error .missingArgument) := by
  simp [extract, h]

theorem extract_not_eos (buf : List Nat) (tt : TargetType)
    (s : ReceivedMessageArgumentStream) (h : s.Eos = false) :
    extract buf tt s
      = ({ s with p_ := s.p_.Advance buf }, decodeArg buf tt s.p_.value_) := by
  simp [extract, h]

/-- C4: a typed stream extraction (operator>>) raises missing-argument exactly
when the stream is at end of stream; otherwise it advances the cursor by one
argument and its outcome is the checked decode of the argument the cursor
pointed at (the decode itself succeeding whenever the tag satisfies the
requested target type). -/
theorem extraction_missing_iff_eos (buf : List Nat) (tt : TargetType)
    (s : ReceivedMessageArgumentStream) :
    ((extract buf tt s).2 = .error .missingArgument ↔ s.Eos = true)
    ∧ (s.Eos = false →
        (extract buf tt s).1.p_.value_.typeTagPtr_ = s.p_.value_.typeTagPtr_ + 1
        ∧ (extract buf tt s).2 = decodeArg buf tt s.p_.value_) := by
  cases h : s.Eos
  · rw [extract_not_eos buf tt s h]
    exact ⟨by simp [decodeArg_ne_missing buf tt s.p_.value_], fun _ => ⟨rfl, rfl⟩⟩
  · rw [extract_eos buf tt s h]
    simp

/-- C5: the terminal expect-end extraction (operator>> on MessageTerminator)
raises an excess-argument error if and only if at least one argument remains
unconsumed; at end of stream it succeeds, and the stream is left unchanged
in every case. -/
theorem terminator_excess_iff (s : ReceivedMessageArgumentStream) :
    ((extractEnd s).2 = .error .excessArgument ↔ s.Eos = false)
    ∧ (extractEnd s).1 = s
    ∧ (s.Eos = true → (extractEnd s).2 = .ok ()) := by
  unfold extractEnd
  cases h : s.Eos <;> simp [h]

/-- C9: a failed typed extraction is not atomic: when the stream is not at end
of stream and the int32 extraction meets a mismatched tag, it raises
wrong-argument-type with the cursor already advanced past the offending
argument, so a following extraction on the returned stream decodes the next
argument, not the one that failed. -/
theorem failed_extraction_advances (buf : List Nat)
    (s : ReceivedMessageArgumentStream) (h1 : s.Eos = false)
    (h2 : tagMatches .tInt32 (s.p_.value_.TypeTag buf) = false) :
    (extract buf .tInt32 s).2 = .error .wrongArgumentType
    ∧ (extract buf .tInt32 s).1.p_.value_.typeTagPtr_ = s.p_.value_.typeTagPtr_ + 1
    ∧ (extract buf .tInt32 s).1.end_ = s.end_
    ∧ ∀ tt2 : TargetType,
        (extract buf .tInt32 s).1.Eos = false →
        (extract buf tt2 (extract buf .tInt32 s).1).2
          = decodeArg buf tt2 (extract buf .tInt32 s).1.p_.value_ := by
  rw [extract_not_eos buf .tInt32 s h1]
  refine ⟨by simp [decodeArg, h2], rfl, rfl, ?_⟩
  intro tt2 h3
  rw [extract_not_eos buf tt2 _ h3]

/-- Witness for C9 at a one-argument stream whose current tag is f. -/
theorem failed_extraction_advances_witness :
    streamFloatArg.Eos = false
    ∧ tagMatches .tInt32 (streamFloatArg.p_.value_.TypeTag bufFloatArg) = false
    ∧ ((extract bufFloatArg .tInt32 streamFloatArg).2 = .error .wrongArgumentType
       ∧ (extract bufFloatArg .tInt32 streamFloatArg).1.p_.value_.typeTagPtr_
           = streamFloatArg.p_.value_.typeTagPtr_ + 1
       ∧ (extract bufFloatArg .tInt32 streamFloatArg).1.end_ = streamFloatArg.end_
       ∧ ∀ tt2 : TargetType,
           (extract bufFloatArg .tInt32 streamFloatArg).1.Eos = false →
           (extract bufFloatArg tt2 (extract bufFloatArg .tInt32 streamFloatArg).1).2
             = decodeArg bufFloatArg tt2
                 (extract bufFloatArg .tInt32 streamFloatArg).1.p_.value_) :=
  ⟨by decide, by decide,
    failed_extraction_advances bufFloatArg streamFloatArg (by decide) (by decide)⟩

end osc

namespace oscpack.posix

/-- C6 (amended): while the stop flag is unset, a select() failure with errno
EINTR restarts the loop and any other failure is fatal, raising an error
that propagates to Run()'s caller; a failure met with the stop flag already
set makes Run() leave the loop normally instead. -/
theorem select_failure_policy (err : Nat) :
    (handleSelectFailure false err = .retryLoop ↔ err = EINTR)
    ∧ (handleSelectFailure false err = .fatalError ↔ err ≠ EINTR)
    ∧ handleSelectFailure true err = .exitLoop := by
  unfold handleSelectFailure
  by_cases h : err = EINTR <;> simp [h]

/-- Counterexample to C6 as stated: a select() failure with errno 9 (not an
interruption) while the stop flag is set does not raise an error: the loop
is left normally, so the failure is not fatal to Run()'s caller. -/
theorem select_failure_counterexample :
    (9 : Nat) ≠ EINTR
    ∧ handleSelectFailure true 9 = .exitLoop
    ∧ handleSelectFailure true 9 ≠ .fatalError := by decide

/-- C7: AsynchronousBreak() sets the stop flag and signals the wake pipe, and
a Run() blocked with no sockets and no timers returns within the one wait
cycle that the pipe byte wakes: select() returns on the readable pipe, the
byte is drained, the stop flag is seen set and the loop is left. -/
theorem asynchronous_break_wakes (s : MuxState) :
    (AsynchronousBreak s).breakFlag = true
    ∧ (AsynchronousBreak s).pipeBytes = s.pipeBytes + 1
    ∧ waitCycleNoWork (AsynchronousBreak s) = .returns := by
  refine ⟨rfl, rfl, ?_⟩
  simp [waitCycleNoWork, AsynchronousBreak]

/-- C10: Run() resets the stop flag to false on entry, so a Break() or an
AsynchronousBreak() issued before Run() begins is discarded: the flag is
false after entry, and the wait cycle woken by the stale pipe byte of a
pre-run AsynchronousBreak() drains it and continues instead of returning. -/
theorem run_resets_break_flag (s : MuxState) :
    (RunEntry (Break s)).breakFlag = false
    ∧ (RunEntry (AsynchronousBreak s)).breakFlag = false
    ∧ waitCycleNoWork (RunEntry (AsynchronousBreak s)) = .continues ⟨false, s.pipeBytes⟩ := by
  refine ⟨rfl, rfl, ?_⟩
  simp [waitCycleNoWork, RunEntry, AsynchronousBreak]

theorem serviceSockets_normal (es : List SocketEntry)
    (h : ∀ e ∈ es, e.readable = true →
        0 < e.recvSize ∧ isStopMessage e.recvSize e.recvData = false
          ∧ e.handlerBreaks = false) :
    serviceSockets es = (false, (es.filter (fun e => e.readable)).map invocationOf) := by
  induction es with
  | nil => rfl
  | cons e rest ih =>
    have ihr := ih (fun x hx hxr => h x (List.mem_cons_of_mem _ hx) hxr)
    cases he : e.readable with
    | true =>
      obtain ⟨h1, h2, h3⟩ := h e (List.mem_cons_self _ _) he
      simp [serviceSockets, he, h2, h1, h3, ihr]
    | false => simp [serviceSockets, he, ihr]

/-- C1 (amended): during one pass of Run()'s socket service loop in which
every readable socket delivers a datagram of nonzero length that is not the
8-byte stop sentinel and no handler sets the stop flag, each received
datagram produces exactly one ProcessPacket call on its socket's listener,
carrying the buffer, the received length and the sender address, in
registration order; the stop flag stays unset. -/
theorem socket_dispatch_per_datagram (es : List SocketEntry)
    (h : ∀ e ∈ es, e.readable = true →
        0 < e.recvSize ∧ isStopMessage e.recvSize e.recvData = false
          ∧ e.handlerBreaks = false) :
    (serviceSockets es).2 = (es.filter (fun e => e.readable)).map invocationOf
    ∧ (serviceSockets es).1 = false := by
  rw [serviceSockets_normal es h]
  exact ⟨rfl, rfl⟩

/-- Witness for C1 at a single readable socket with an ordinary datagram. -/
theorem socket_dispatch_witness :
    (∀ e ∈ [plainEntry], e.readable = true →
        0 < e.recvSize ∧ isStopMessage e.recvSize e.recvData = false
          ∧ e.handlerBreaks = false)
    ∧ ((serviceSockets [plainEntry]).2
          = ([plainEntry].filter (fun e => e.readable)).map invocationOf
       ∧ (serviceSockets [plainEntry]).1 = false) :=
  ⟨by decide, socket_dispatch_per_datagram [plainEntry] (by decide)⟩

/-- Counterexample to C1 as stated: the 8-byte stop-sentinel datagram is
received on a registered readable socket yet its listener's packet handler
is never invoked, so not every inbound datagram produces exactly one
handler call. -/
theorem socket_dispatch_counterexample :
    stopEntry.readable = true ∧ 0 < stopEntry.recvSize
    ∧ (serviceSockets [stopEntry]).2 = []
    ∧ (serviceSockets [stopEntry]).2 ≠ [invocationOf stopEntry] := by decide

/-- C8: when a read on a registered socket returns exactly 8 bytes holding
the NUL-terminated stop string, the service loop sets the stop flag and
stops reading sockets; no packet handler is invoked for that datagram (the
invocations are exactly those of the normal datagrams before it), and the
event loop's while condition then fails, so Run() exits its loop: any
sender able to deliver that datagram stops the event loop. -/
theorem stop_sentinel_stops_loop (pre post : List SocketEntry) (e : SocketEntry)
    (he : e.readable = true)
    (hstop : isStopMessage e.recvSize e.recvData = true)
    (hpre : ∀ x ∈ pre, x.readable = true →
        0 < x.recvSize ∧ isStopMessage x.recvSize x.recvData = false
          ∧ x.handlerBreaks = false) :
    (serviceSockets (pre ++ e :: post)).1 = true
    ∧ (serviceSockets (pre ++ e :: post)).2
        = (pre.filter (fun x => x.readable)).map invocationOf
    ∧ loopContinues (serviceSockets (pre ++ e :: post)).1 = false := by
  induction pre with
  | nil => simp [serviceSockets, he, hstop, loopContinues]
  | cons x rest ih =>
    have ihr := ih (fun y hy hyr => hpre y (List.mem_cons_of_mem _ hy) hyr)
    cases hxr : x.readable with
    | true =>
      obtain ⟨h1, h2, h3⟩ := hpre x (List.mem_cons_self _ _) hxr
      simp [serviceSockets, hxr, h2, h1, h3, ihr.1, ihr.2.1, loopContinues]
    | false => simp [serviceSockets, hxr, ihr.1, ihr.2.1, loopContinues]

/-- Witness for C8: one normal datagram followed by the stop sentinel. -/
theorem stop_sentinel_witness :
    stopEntry.readable = true
    ∧ isStopMessage stopEntry.recvSize stopEntry.recvData = true
    ∧ (∀ x ∈ [plainEntry], x.readable = true →
        0 < x.recvSize ∧ isStopMessage x.recvSize x.recvData = false
          ∧ x.handlerBreaks = false)
    ∧ ((serviceSockets ([plainEntry] ++ stopEntry :: [])).1 = true
       ∧ (serviceSockets ([plainEntry] ++ stopEntry :: [])).2
           = ([plainEntry].filter (fun x => x.readable)).map invocationOf
       ∧ loopContinues (serviceSockets ([plainEntry] ++ stopEntry :: [])).1 = false) :=
  ⟨by decide, by decide, by decide,
    stop_sentinel_stops_loop [plainEntry] [] stopEntry (by decide) (by decide) (by decide)⟩

end oscpack.posix

namespace oscpack.posix

theorem rescheduleElapsed_id (now : Int) (q : List TimerEntry)
    (h : ∀ x ∈ q, ¬ x.first ≤ now) : q.map (rescheduleElapsed now) = q := by
  have h1 : ∀ x ∈ q, rescheduleElapsed now x = x := fun x hx => by
    simp [rescheduleElapsed, h x hx]
  exact (List.map_congr_left h1).trans (List.map_id _)

theorem fireLoop_no_breaks (now : Int) (q : List TimerEntry)
    (hs : List.Sorted timerLe q)
    (hnb : ∀ e ∈ q, e.first ≤ now → e.handlerBreaks = false) :
    fireLoop now q
      = (q.map (rescheduleElapsed now),
          (q.filter (fun e => decide (e.first ≤ now))).map (fun e => e.id),
          !(q.filter (fun e => decide (e.first ≤ now))).isEmpty, false) := by
  induction q with
  | nil => rfl
  | cons e rest ih =>
    have hs' := List.sorted_cons.mp hs
    have ihr := ih hs'.2 (fun x hx => hnb x (List.mem_cons_of_mem _ hx))
    by_cases hel : e.first ≤ now
    · have hb := hnb e (List.mem_cons_self _ _) hel
      simp [fireLoop, hel, hb, ihr, List.filter_cons, rescheduleElapsed]
    · have hrest : ∀ x ∈ rest, ¬ x.first ≤ now := fun x hx hc =>
        hel (le_trans (hs'.1 x hx) hc)
      have hfil : rest.filter (fun x => decide (x.first ≤ now)) = [] :=
        List.filter_eq_nil_iff.mpr (by simpa using hrest)
      simp [fireLoop, hel, List.filter_cons, hfil, rescheduleElapsed,
        rescheduleElapsed_id now rest hrest]

/-- C2 (amended): in a pass of the timer loop whose sorted queue has no
expired entry with a stop-flag-setting handler, every expired entry fires,
in ascending fire-time order; each fired entry is rescheduled to its
previous fire time plus its period (never the current time plus the
period), the entries are otherwise untouched, and the resulting queue is
sorted by fire time again. -/
theorem timer_fire_reschedule (now : Int) (q : List TimerEntry)
    (hs : List.Sorted timerLe q)
    (hnb : ∀ e ∈ q, e.first ≤ now → e.handlerBreaks = false) :
    (execExpiredTimers now q).2.1
        = (q.filter (fun e => decide (e.first ≤ now))).map (fun e => e.id)
    ∧ (execExpiredTimers now q).2.2 = false
    ∧ List.Perm (execExpiredTimers now q).1 (q.map (rescheduleElapsed now))
    ∧ List.Sorted timerLe (execExpiredTimers now q).1 := by
  have hf := fireLoop_no_breaks now q hs hnb
  unfold execExpiredTimers
  rw [hf]
  refine ⟨rfl, rfl, ?_, ?_⟩
  · by_cases hE : (q.filter (fun e => decide (e.first ≤ now))).isEmpty
    · simp [hE]
    · simp only [hE, Bool.not_false, if_pos]
      exact List.perm_insertionSort timerLe _
  · by_cases hE : (q.filter (fun e => decide (e.first ≤ now))).isEmpty
    · have hnone : ∀ x ∈ q, ¬ x.first ≤ now := by
        intro x hx hc
        have : x ∈ q.filter (fun e => decide (e.first ≤ now)) :=
          List.mem_filter.mpr ⟨hx, by simpa using hc⟩
        rw [List.isEmpty_iff.mp hE] at this
        simp at this
      simp [hE, rescheduleElapsed_id now q hnone, hs]
    · simp only [hE, Bool.not_false, if_pos]
      exact List.sorted_insertionSort timerLe _

/-- Witness for C2 at a sorted two-timer queue with one expired entry. -/
theorem timer_fire_witness :
    List.Sorted timerLe queueSample
    ∧ (∀ e ∈ queueSample, e.first ≤ 100 → e.handlerBreaks = false)
    ∧ ((execExpiredTimers 100 queueSample).2.1
          = (queueSample.filter (fun e => decide (e.first ≤ 100))).map (fun e => e.id)
       ∧ (execExpiredTimers 100 queueSample).2.2 = false
       ∧ List.Perm (execExpiredTimers 100 queueSample).1
           (queueSample.map (rescheduleElapsed 100))
       ∧ List.Sorted timerLe (execExpiredTimers 100 queueSample).1) :=
  ⟨by decide, by decide, timer_fire_reschedule 100 queueSample (by decide) (by decide)⟩

/-- Counterexample to C2 as stated: with two expired entries whose first
handler sets the stop flag, the second expired entry never fires in the
pass, and the fired entry keeps its old next-fire time instead of old plus
period, so not every elapsed entry fires and reschedules. -/
theorem timer_fire_counterexample :
    (∀ e ∈ queueBreaking, e.first ≤ 0)
    ∧ (execExpiredTimers 0 queueBreaking).2.1
        ≠ (queueBreaking.filter (fun e => decide (e.first ≤ 0))).map (fun e => e.id)
    ∧ (execExpiredTimers 0 queueBreaking).1.map (fun e => e.first) = [0, 0] := by
  decide

end oscpack.posix

namespace osc

theorem findNulAux_some (l : List Nat) :
    ∀ i j : Nat, findNulAux l i = some j → j = i + cstrLen l := by
  induction l with
  | nil => intro i j h; simp [findNulAux] at h
  | cons b rest ih =>
    intro i j h
    by_cases hb : b = 0
    · simp [findNulAux, hb] at h
      simp [cstrLen, hb]
      omega
    · simp [findNulAux, hb] at h
      have := ih (i + 1) j h
      simp [cstrLen, hb]
      omega

theorem findNul_some (buf : List Nat) (s j : Nat) (h : findNul buf s = some j) :
    j = s + cstrLen (buf.drop s) := by
  unfold findNul at h
  exact findNulAux_some _ s j h

theorem Init_typeTags (buf : List Nat) (msg : ReceivedMessage)
    (h : ReceivedMessage.Init buf = .ok msg) :
    msg.typeTagsEnd_ = msg.typeTagsBegin_ + cstrLen (buf.drop msg.typeTagsBegin_) := by
  unfold ReceivedMessage.Init at h
  split at h
  · exact absurd h (by simp)
  · split at h
    · split at h
      · exact absurd h (by simp)
      · rename_i addressEnd _ tagsEnd heq
        injection h with h
        subst h
        exact findNul_some buf _ tagsEnd heq
    · exact absurd h (by simp)

theorem iterCollect_range (buf : List Nat) (n : Nat) :
    ∀ (fuel : Nat) (cur : ReceivedMessageArgumentIterator) (stopTag stopArg : Nat),
    stopTag = cur.value_.typeTagPtr_ + n → n ≤ fuel →
    iterCollect buf fuel cur ⟨⟨stopTag, stopArg⟩⟩
      = some ((List.range n).map fun k => byteAt buf (cur.value_.typeTagPtr_ + k)) := by
  induction n with
  | zero =>
    intro fuel cur stopTag stopArg hst _
    have hst' : stopTag = cur.value_.typeTagPtr_ := by omega
    subst hst'
    have heq : cur.IsEqualTo ⟨⟨cur.value_.typeTagPtr_, stopArg⟩⟩ = true := by
      simp [ReceivedMessageArgumentIterator.IsEqualTo]
    cases fuel <;> simp [iterCollect, heq]
  | succ n ih =>
    intro fuel cur stopTag stopArg hst hf
    obtain ⟨f, rfl⟩ : ∃ f, fuel = f + 1 := ⟨fuel - 1, by omega⟩
    have hne : cur.IsEqualTo ⟨⟨stopTag, stopArg⟩⟩ = false := by
      simp [ReceivedMessageArgumentIterator.IsEqualTo]
      omega
    have hadv : stopTag = (cur.Advance buf).value_.typeTagPtr_ + n := by
      simp [ReceivedMessageArgumentIterator.Advance]
      omega
    have hr := ih f (cur.Advance buf) stopTag stopArg hadv (by omega)
    simp only [iterCollect, hne, Bool.false_eq_true, if_false, hr]
    rw [List.range_succ_eq_map]
    simp only [List.map_cons, List.map_map, Option.some.injEq, List.cons.injEq]
    refine ⟨by simp [ReceivedMessageArgument.TypeTag], ?_⟩
    apply List.map_congr_left
    intro a _
    show byteAt buf ((ReceivedMessageArgumentIterator.Advance buf cur).value_.typeTagPtr_ + a)
        = byteAt buf (cur.value_.typeTagPtr_ + Nat.succ a)
    have hone : (ReceivedMessageArgumentIterator.Advance buf cur).value_.typeTagPtr_
        = cur.value_.typeTagPtr_ + 1 := rfl
    rw [hone]
    congr 1
    omega

/-- C3: for a message the reader accepts, ArgumentCount() equals the number N
of type-tag characters after the leading comma, and iterating from
ArgumentsBegin() to ArgumentsEnd() yields exactly N arguments whose type
tags are the tag string's characters in order. -/
theorem argument_count_iteration (buf : List Nat) (msg : ReceivedMessage) (fuel : Nat)
    (h : ReceivedMessage.Init buf = .ok msg)
    (hf : msg.ArgumentCount ≤ fuel) :
    msg.ArgumentCount = cstrLen (buf.drop msg.typeTagsBegin_)
    ∧ (messageTags buf msg).length = msg.ArgumentCount
    ∧ iterCollect buf fuel msg.ArgumentsBegin msg.ArgumentsEnd
        = some (messageTags buf msg) := by
  have hEnd := Init_typeTags buf msg h
  have hAC : msg.ArgumentCount = cstrLen (buf.drop msg.typeTagsBegin_) := by
    unfold ReceivedMessage.ArgumentCount
    omega
  refine ⟨hAC, by simp [messageTags], ?_⟩
  have hstop : msg.typeTagsEnd_ = msg.ArgumentsBegin.value_.typeTagPtr_ + msg.ArgumentCount := by
    unfold ReceivedMessage.ArgumentsBegin ReceivedMessage.ArgumentCount
    dsimp only
    omega
  exact iterCollect_range buf msg.ArgumentCount fuel msg.ArgumentsBegin
    msg.typeTagsEnd_ 0 hstop hf

/-- Witness for C3 at the spec's concrete one-argument message buffer. -/
theorem argument_count_iteration_witness :
    ReceivedMessage.Init bufSample = .ok msgSample
    ∧ msgSample.ArgumentCount ≤ 4
    ∧ (msgSample.ArgumentCount = cstrLen (bufSample.drop msgSample.typeTagsBegin_)
       ∧ (messageTags bufSample msgSample).length = msgSample.ArgumentCount
       ∧ iterCollect bufSample 4 msgSample.ArgumentsBegin msgSample.ArgumentsEnd
           = some (messageTags bufSample msgSample)) :=
  ⟨by rfl, by decide,
    argument_count_iteration bufSample msgSample 4 (by rfl) (by decide)⟩

end osc
